import Mathlib

/- Shallow embedding of the haggen/webgpu repository: a WebGPU Game-of-Life
   toy present in three variants.

   Variant "001" (src/unnamed/part_001): grid 128x128, two storage buffers,
   a pure rule kernel (cmain), a time-based scheduler with cadence
   STEP_RATE = 50, and a position-keyed gradient fragment shader.

   Variant "000" (src/unnamed/part_000): grid 128x128, two storage buffers,
   a kernel with mouse paint override and an in-kernel burst throttle
   (floor(time % 500) > 32 returns early), a scheduler comparing against
   the literal 1, and a time-keyed keyframe palette fragment shader.

   Variant "TS" (src/src/script.ts): grid 64x64, one packed buffer holding
   the current half (indices 0..4095) and the next half (4096..8191); the
   kernel ends with a loop copying the next half onto the current half.

   u32 arithmetic is modelled as Nat with explicit reduction modulo 2^32;
   f32 quantities that the claims depend on (time, mouse position) are
   modelled as rationals with exact floor/fract, which is faithful for the
   integer-valued comparisons the shaders perform. -/

def U32 : ℕ := 2 ^ 32

/-- u32 addition: wraps modulo 2^32. -/
def u32add (a b : ℕ) : ℕ := (a + b) % U32

/-- u32 subtraction of 1, as in the WGSL expression cell.x - 1: wraps
modulo 2^32, so 0 - 1 is 2^32 - 1. -/
def u32sub1 (a : ℕ) : ℕ := (a + (U32 - 1)) % U32

/-- WGSL truncation toward zero, used by the float % operator. -/
def ftrunc (x : ℚ) : ℤ := if 0 ≤ x then ⌊x⌋ else ⌈x⌉

/-- WGSL float remainder: x % y = x - y * trunc(x / y). -/
def fmod (x y : ℚ) : ℚ := x - y * (ftrunc (x / y) : ℚ)

/-- WGSL u32(e) applied to an integer-valued float: the conversion
saturates, clamping negatives to 0 and large values to 2^32 - 1. -/
def satU32 (z : ℤ) : ℕ := if z < 0 then 0 else min z.toNat (U32 - 1)

/-- cell_index (part_001) / indexOf (part_000) / getIndex (script.ts):
(y % gridSize.y) * gridSize.x + (x % gridSize.x). -/
def cellIndex (W H x y : ℕ) : ℕ := (y % H) * W + (x % W)

/-- cell_state / stateOf / getState: read the current generation at the
wrapped index. -/
def stateOf (W H : ℕ) (g : ℕ → ℕ) (x y : ℕ) : ℕ := g (cellIndex W H x y)

/-- The eight-neighbor alive count, in the exact order the kernels sum it:
(x+1,y+1), (x+1,y), (x+1,y-1), (x,y-1), (x-1,y-1), (x-1,y), (x-1,y+1),
(x,y+1), with every coordinate offset computed in u32 arithmetic. -/
def activeNeighbors (W H : ℕ) (g : ℕ → ℕ) (x y : ℕ) : ℕ :=
  stateOf W H g (u32add x 1) (u32add y 1) + stateOf W H g (u32add x 1) y +
  stateOf W H g (u32add x 1) (u32sub1 y) + stateOf W H g x (u32sub1 y) +
  stateOf W H g (u32sub1 x) (u32sub1 y) + stateOf W H g (u32sub1 x) y +
  stateOf W H g (u32sub1 x) (u32add y 1) + stateOf W H g x (u32add y 1)

/-- The switch on the neighbor count shared by all three kernels:
case 2 keeps the current state, case 3 writes 1, default writes 0. -/
def ruleNext (cur n : ℕ) : ℕ := if n = 2 then cur else if n = 3 then 1 else 0

/-- mouseGridPosition: u32(floor((mouse + 1) / 2 * gridSize)), with the
saturating WGSL float-to-u32 conversion. -/
def mapPtr (p : ℚ) (size : ℕ) : ℕ := satU32 ⌊(p + 1) / 2 * (size : ℚ)⌋

/-- Whole-grid effect of one cmain dispatch in part_000. Each invocation
(cell.x, cell.y) with both coordinates below 128 writes only its own index
i = indexOf(cell.x, cell.y) = cell.y * 128 + cell.x, so the dispatch is the
pointwise function below: paint mode writes 1 into gridNextState at the
mouse target cell and returns everywhere else; the burst throttle
floor(time % 500) > 32 returns without writing; otherwise the rule value is
written. Slots outside the grid are untouched. -/
def step000 (time mx my : ℚ) (pressed : ℕ) (cur next : ℕ → ℕ) : ℕ → ℕ :=
  fun j =>
    if j < 128 * 128 then
      if pressed % 2 = 1 then
        if mapPtr mx 128 = j % 128 ∧ mapPtr my 128 = j / 128 then 1 else next j
      else if 32 < ⌊fmod time 500⌋ then next j
      else ruleNext (cur j) (activeNeighbors 128 128 cur (j % 128) (j / 128))
    else next j

/-- Whole-grid effect of one cmain dispatch in part_001: no paint mode and
no throttle, every invocation writes the rule value to its own slot of
state_out. -/
def step001 (state_in state_out : ℕ → ℕ) : ℕ → ℕ :=
  fun j =>
    if j < 128 * 128 then
      ruleNext (state_in j) (activeNeighbors 128 128 state_in (j % 128) (j / 128))
    else state_out j

/-- script.ts rule write: setNextStateAt(i, ...) stores at offset + i where
offset = 64 * 64, so only the next half of the packed buffer changes. -/
def ruleWriteTS (g : ℕ → ℕ) (cx cy : ℕ) : ℕ → ℕ :=
  fun j =>
    if j = 64 * 64 + cellIndex 64 64 cx cy then
      ruleNext (g (cellIndex 64 64 cx cy)) (activeNeighbors 64 64 g cx cy)
    else g j

/-- script.ts trailing copy loop: for i in 0..4095, gridState[i] :=
gridState[4096 + i]. The loop only writes indices below 4096 and only reads
indices at or above 4096, so its sequential effect is this pure function. -/
def copyTS (g : ℕ → ℕ) : ℕ → ℕ :=
  fun j => if j < 64 * 64 then g (64 * 64 + j) else g j

/-- One invocation of cmain in script.ts for cell (cx, cy), acting on the
packed buffer g: paint mode writes 1 at the invocation own current-half
index when the mouse target equals the cell and returns; the frame
throttle floor(frame % 8) > 0 returns without writing; otherwise the rule
value is written to the next half and the copy loop runs. -/
def cmainTS (frame : ℕ) (mx my : ℚ) (pressed : ℕ) (g : ℕ → ℕ) (cx cy : ℕ) : ℕ → ℕ :=
  if pressed % 2 = 1 then
    fun j =>
      if (mapPtr mx 64 = cx ∧ mapPtr my 64 = cy) ∧ j = cellIndex 64 64 cx cy then 1 else g j
  else if 0 < frame % 8 then g
  else copyTS (ruleWriteTS g cx cy)

/-- Whole-grid effect of a script.ts dispatch in paint mode: every
invocation takes the paint branch and returns, and only the invocation
whose cell equals the mouse target writes (value 1, at its own
current-half index). -/
def paintTS (mx my : ℚ) (g : ℕ → ℕ) : ℕ → ℕ :=
  fun j =>
    if j < 64 * 64 ∧ mapPtr mx 64 = j % 64 ∧ mapPtr my 64 = j / 64 then 1 else g j

/-- An all-dead grid, used as a concrete input. -/
def zeroGrid : ℕ → ℕ := fun _ => 0

/-- Scheduler state of the part_001 frame loop: lastUpdateTime and the
step counter. part_000 keeps the same pair (lastSimulationTime, step). -/
structure Sched where
  last : ℚ
  step : ℕ
deriving DecidableEq

/-- One frame of the part_001 scheduler: updateTimeDelta = time -
lastUpdateTime; when it reaches the cadence the dispatch runs, step is
incremented and lastUpdateTime := time, otherwise nothing changes. -/
def schedFrame (cadence : ℚ) (s : Sched) (time : ℚ) : Sched :=
  if cadence ≤ time - s.last then { last := time, step := s.step + 1 } else s

/-- Run the part_001 scheduler over frames whose timestamps advance by 10
units: schedRun c s k is the state after processing the frames at times
10 * 0, ..., 10 * (k - 1). -/
def schedRun (cadence : ℚ) (s : Sched) : ℕ → Sched
  | 0 => s
  | k + 1 => schedFrame cadence (schedRun cadence s k) (10 * (k : ℚ))

/-- part_001 bind groups: binding 1 (the storage buffer the render vertex
stage and the kernel read) of bindGroups[i] is gridStateBuffers[i]. -/
def bgRead001 (i : ℕ) : ℕ := i % 2

/-- part_001 bind groups: binding 2 (the read_write buffer the kernel
writes) of bindGroups[i] is gridStateBuffers[(i + 1) % 2]. -/
def bgWrite001 (i : ℕ) : ℕ := (i + 1) % 2

/-- part_000 bind groups: binding 3 (gridCurrentState, read by both the
kernel and the render vertex stage) of bindGroups[i] is
gridStateBuffers[(i + 1) % 2]. -/
def bgRead000 (i : ℕ) : ℕ := (i + 1) % 2

/-- part_000 bind groups: binding 4 (gridNextState, written by the kernel)
of bindGroups[i] is gridStateBuffers[i]. -/
def bgWrite000 (i : ℕ) : ℕ := i % 2

/-- Step counter after one frame. In part_001 the increment happens after
the compute dispatch records its bind group; in part_000 it happens
before. Either way the counter grows by one exactly on step frames. -/
def frameStep (s : ℕ) (due : Bool) : ℕ := if due then s + 1 else s

/-- part_001 draw: the render pass uses bindGroups[step % 2] with the
post-frame value of step, and reads its binding 1. -/
def renderBuf001 (s : ℕ) : ℕ := bgRead001 (s % 2)

/-- part_001 draw: on a due frame the compute pass uses
bindGroups[step % 2] with the pre-increment value of step, and writes its
binding 2. -/
def kernelWriteBuf001 (s : ℕ) : ℕ := bgWrite001 (s % 2)

/-- part_001 draw: the compute pass reads binding 1 of its bind group. -/
def kernelReadBuf001 (s : ℕ) : ℕ := bgRead001 (s % 2)

/-- part_000 render: the render pass uses bindGroups[step % 2] with the
post-increment value of step, and reads its binding 3. -/
def renderBuf000 (s : ℕ) : ℕ := bgRead000 (s % 2)

/-- part_000 render: on a due frame step is incremented first and the
compute pass uses bindGroups[step % 2] with the post-increment value,
writing its binding 4. -/
def kernelWriteBuf000 (s : ℕ) : ℕ := bgWrite000 (s % 2)

/-- part_000 render: the compute pass reads binding 3 of its bind group. -/
def kernelReadBuf000 (s : ℕ) : ℕ := bgRead000 (s % 2)

/-- part_000 startup: gridStateData is filled with the random pattern
(rand) for every index below 128 * 128, and only then written to buffer 1
and buffer 0, so both buffers hold the pattern. -/
def init000 (rand : ℕ → ℕ) : (ℕ → ℕ) × (ℕ → ℕ) :=
  (fun i => if i < 128 * 128 then rand i else 0,
   fun i => if i < 128 * 128 then rand i else 0)

/-- part_001 startup: the all-zero gridStateData is written to buffer 1
first, then the array is randomized and written to buffer 0. The pair is
(buffer 0, buffer 1). -/
def init001 (rand : ℕ → ℕ) : (ℕ → ℕ) × (ℕ → ℕ) :=
  (fun i => if i < 128 * 128 then rand i else 0, fun _ => 0)

/-- script.ts startup: the single packed buffer of length 2 * 64 * 64 is
randomized over its whole length (both halves) before being written. -/
def initTS (rand : ℕ → ℕ) : ℕ → ℕ :=
  fun i => if i < 2 * (64 * 64) then rand i else 0

/-- vmain: the vertex position for instance inst with local corner p:
cell = (inst % W, inst / W), offset = cell / grid * 2, and
position = (p * state[inst] + 1) / grid - 1 + offset, componentwise. -/
def vmainPos (W : ℕ) (state : ℕ → ℕ) (inst : ℕ) (p : ℚ × ℚ) : ℚ × ℚ :=
  ((p.1 * (state inst : ℚ) + 1) / (W : ℚ) - 1 + ((inst % W : ℕ) : ℚ) / (W : ℚ) * 2,
   (p.2 * (state inst : ℚ) + 1) / (W : ℚ) - 1 + ((inst / W : ℕ) : ℚ) / (W : ℚ) * 2)

/-- A generation with a single alive cell at (x0, y0), all others dead. -/
def singleAlive (W x0 y0 : ℕ) : ℕ → ℕ :=
  fun j => if j = y0 * W + x0 then 1 else 0

/-- The 9-entry color keyframe table of the fmain fragment shader
(part_000 and script.ts), in source order. -/
def keyframes : List (ℚ × ℚ × ℚ × ℚ) :=
  [(1, 0, 0, 1), (1, 1, 0, 1), (0, 1, 0, 1), (0, 1, 1, 1), (0, 0, 1, 1),
   (0, 1, 1, 1), (0, 1, 0, 1), (1, 1, 0, 1), (1, 0, 0, 1)]

/-- keyframeLength = 1000.0. -/
def keyframeLength : ℚ := 1000

/-- keyframeIndex = u32(floor(t / keyframeLength) % keyframesTotal): the
% is the truncation-based float remainder applied to the integer-valued
float floor(t / keyframeLength) and keyframesTotal = 9.0, and the u32
conversion saturates. -/
def keyframeIndex (t : ℚ) : ℕ :=
  satU32 ⌊fmod ((⌊t / keyframeLength⌋ : ℤ) : ℚ) 9⌋

/-- keyframeProgress = fract(t / keyframeLength). -/
def keyframeProgress (t : ℚ) : ℚ := Int.fract (t / keyframeLength)

/-- Reading the fixed-size keyframes array at index i as the WGSL runtime
does: an out-of-bounds index is clamped into the array. -/
def kfClamped (i : ℕ) : ℚ × ℚ × ℚ × ℚ :=
  keyframes.getD (min i (keyframes.length - 1)) (0, 0, 0, 0)

/-- Claim C1: for every cell, when no paint override is active (pressed
bit 0 clear) and the kernel writes this step, the next state of the cell
is determined solely by its current state and its toroidal alive-neighbor
count n: n = 2 keeps the current state, n = 3 writes alive, any other n
writes dead. Stated for the part_000 dispatch, the part_001 dispatch and
the script.ts invocation (whose rule value lands in the next half of the
packed buffer), together with the case analysis of the shared switch. -/
theorem c1_rule :
    (∀ (time mx my : ℚ) (pressed : ℕ) (cur next : ℕ → ℕ) (x y : ℕ),
      x < 128 → y < 128 → pressed % 2 = 0 → ¬ 32 < ⌊fmod time 500⌋ →
      step000 time mx my pressed cur next (y * 128 + x) =
        ruleNext (cur (y * 128 + x)) (activeNeighbors 128 128 cur x y)) ∧
    (∀ (state_in state_out : ℕ → ℕ) (x y : ℕ), x < 128 → y < 128 →
      step001 state_in state_out (y * 128 + x) =
        ruleNext (state_in (y * 128 + x)) (activeNeighbors 128 128 state_in x y)) ∧
    (∀ (frame : ℕ) (mx my : ℚ) (pressed : ℕ) (g : ℕ → ℕ) (x y : ℕ),
      x < 64 → y < 64 → pressed % 2 = 0 → frame % 8 = 0 →
      cmainTS frame mx my pressed g x y (64 * 64 + (y * 64 + x)) =
        ruleNext (g (y * 64 + x)) (activeNeighbors 64 64 g x y)) ∧
    (∀ cur n : ℕ, (n = 2 → ruleNext cur n = cur) ∧ (n = 3 → ruleNext cur n = 1) ∧
      (n ≠ 2 → n ≠ 3 → ruleNext cur n = 0)) := by
  refine ⟨?_, ?_, ?_, ?_⟩
  · intro time mx my pressed cur next x y hx hy hp ht
    have e1 : (y * 128 + x) % 128 = x := by omega
    have e2 : (y * 128 + x) / 128 = y := by omega
    unfold step000
    rw [if_pos (by omega : y * 128 + x < 128 * 128),
      if_neg (by omega : ¬ pressed % 2 = 1), if_neg ht, e1, e2]
  · intro state_in state_out x y hx hy
    have e1 : (y * 128 + x) % 128 = x := by omega
    have e2 : (y * 128 + x) / 128 = y := by omega
    unfold step001
    rw [if_pos (by omega : y * 128 + x < 128 * 128), e1, e2]
  · intro frame mx my pressed g x y hx hy hp hf
    have hc : cellIndex 64 64 x y = y * 64 + x := by unfold cellIndex; omega
    unfold cmainTS copyTS ruleWriteTS
    rw [if_neg (by omega : ¬ pressed % 2 = 1), if_neg (by omega : ¬ 0 < frame % 8)]
    rw [if_neg (by omega : ¬ 64 * 64 + (y * 64 + x) < 64 * 64), hc]
    rw [if_pos rfl]
  · intro cur n
    refine ⟨fun h => ?_, fun h => ?_, fun h2 h3 => ?_⟩ <;>
      simp [ruleNext, *]

/-- Claim C2: toroidal addressing. For a grid of size 64 or 128, the
+1-in-x neighbor of (s-1, y) resolves to the index of (0, y), the
-1-in-x neighbor of (0, y) resolves to the index of (s-1, y), likewise
for rows, and every neighbor lookup lands at a valid in-grid index. -/
theorem c2_toroidal :
    ∀ s : ℕ, s = 64 ∨ s = 128 →
      (∀ y, y < s → cellIndex s s (u32add (s - 1) 1) y = y * s ∧
        cellIndex s s (u32sub1 0) y = y * s + (s - 1)) ∧
      (∀ x, x < s → cellIndex s s x (u32add (s - 1) 1) = x ∧
        cellIndex s s x (u32sub1 0) = (s - 1) * s + x) ∧
      (∀ x y, cellIndex s s x y < s * s) := by
  intro s hs
  have ha : u32add (s - 1) 1 = s := by
    rcases hs with rfl | rfl <;> simp [u32add, U32]
  have hb : u32sub1 0 = U32 - 1 := by simp [u32sub1, U32]
  have hm : (U32 - 1) % s = s - 1 := by
    rcases hs with rfl | rfl <;> decide
  refine ⟨?_, ?_, ?_⟩
  · intro y hy
    rw [ha, hb]
    unfold cellIndex
    rw [hm]
    constructor <;> rcases hs with rfl | rfl <;> omega
  · intro x hx
    rw [ha, hb]
    unfold cellIndex
    rw [hm]
    constructor <;> rcases hs with rfl | rfl <;> omega
  · intro x y
    unfold cellIndex
    rcases hs with rfl | rfl <;> omega

/-- Witness for C2 at s = 64, y = 3, x = 5: the east neighbor of (63, 3)
is (0, 3), the west neighbor of (0, 3) is (63, 3), and an arbitrary
lookup is in grid. -/
theorem c2_toroidal_witness :
    ((64 : ℕ) = 64 ∨ (64 : ℕ) = 128) ∧ (3 : ℕ) < 64 ∧ (5 : ℕ) < 64 ∧
    (cellIndex 64 64 (u32add 63 1) 3 = 192 ∧
      cellIndex 64 64 (u32sub1 0) 3 = 255 ∧
      cellIndex 64 64 5 (u32sub1 0) = 4037 ∧
      cellIndex 64 64 500 700 < 4096) := by
  refine ⟨Or.inl rfl, by decide, by decide, ?_, ?_, ?_, ?_⟩
  · have h := ((c2_toroidal 64 (Or.inl rfl)).1 3 (by decide)).1
    simpa using h
  · have h := ((c2_toroidal 64 (Or.inl rfl)).1 3 (by decide)).2
    simpa using h
  · have h := ((c2_toroidal 64 (Or.inl rfl)).2.1 5 (by decide)).2
    simpa using h
  · have h := (c2_toroidal 64 (Or.inl rfl)).2.2 500 700
    simpa using h

/-- Witness for C1 on the all-dead grid at cell (0, 0), frame 0, time 0,
no button pressed: every variant writes the rule value, which is dead. -/
theorem c1_rule_witness :
    (0 : ℕ) % 2 = 0 ∧ ¬ 32 < ⌊fmod 0 500⌋ ∧ (0 : ℕ) % 8 = 0 ∧
    step000 0 0 0 0 zeroGrid zeroGrid (0 * 128 + 0) =
      ruleNext (zeroGrid (0 * 128 + 0)) (activeNeighbors 128 128 zeroGrid 0 0) ∧
    step001 zeroGrid zeroGrid (0 * 128 + 0) =
      ruleNext (zeroGrid (0 * 128 + 0)) (activeNeighbors 128 128 zeroGrid 0 0) ∧
    cmainTS 0 0 0 0 zeroGrid 0 0 (64 * 64 + (0 * 64 + 0)) =
      ruleNext (zeroGrid (0 * 64 + 0)) (activeNeighbors 64 64 zeroGrid 0 0) ∧
    ruleNext 0 3 = 1 := by
  have ht : ¬ 32 < ⌊fmod (0 : ℚ) 500⌋ := by
    norm_num [fmod, ftrunc]
  refine ⟨rfl, ht, rfl, ?_, ?_, ?_, ?_⟩
  · exact c1_rule.1 0 0 0 0 zeroGrid zeroGrid 0 0 (by norm_num) (by norm_num) rfl ht
  · exact c1_rule.2.1 zeroGrid zeroGrid 0 0 (by norm_num) (by norm_num)
  · exact c1_rule.2.2.1 0 0 0 0 zeroGrid 0 0 (by norm_num) (by norm_num) rfl rfl
  · exact (c1_rule.2.2.2 0 3).2.1 rfl

/-- Invariant of the part_001 scheduler run with cadence 50 over frames at
times 0, 10, 20, ...: after processing k + 1 frames the step counter is
k / 5 and the baseline is the time of the last executed step, 50 * (k / 5). -/
theorem schedRun_invariant (k : ℕ) :
    schedRun 50 ⟨0, 0⟩ (k + 1) = ⟨((50 * (k / 5) : ℕ) : ℚ), k / 5⟩ := by
  induction k with
  | zero =>
      show schedFrame 50 (schedRun 50 ⟨0, 0⟩ 0) (10 * ((0 : ℕ) : ℚ)) = _
      norm_num [schedRun, schedFrame]
  | succ n ih =>
      show schedFrame 50 (schedRun 50 ⟨0, 0⟩ (n + 1)) (10 * ((n + 1 : ℕ) : ℚ)) = _
      rw [ih]
      unfold schedFrame
      split_ifs with h
      · simp only [Sched.mk.injEq]
        have hn : 50 + 50 * (n / 5) ≤ 10 * (n + 1) := by
          have h2 : (50 : ℚ) + ((50 * (n / 5) : ℕ) : ℚ) ≤ 10 * ((n + 1 : ℕ) : ℚ) := by
            linarith [h]
          exact_mod_cast h2
        have h3 : 50 * ((n + 1) / 5) = 10 * (n + 1) := by omega
        constructor
        · rw [h3]
          push_cast
          ring
        · omega
      · have hn : 10 * (n + 1) < 50 + 50 * (n / 5) := by
          have h2 : 10 * ((n + 1 : ℕ) : ℚ) < (50 : ℚ) + ((50 * (n / 5) : ℕ) : ℚ) := by
            simp only [not_le] at h
            linarith [h]
          exact_mod_cast h2
        have h3 : (n + 1) / 5 = n / 5 := by omega
        rw [h3]

/-- Claim C5: with the time-based policy a step triggers on a frame if and
only if the elapsed time since the last executed step reaches the cadence,
and on triggering the baseline is reset to the current time; with cadence
50 and frame timestamps advancing by 10 units, after k + 1 frames exactly
k / 5 steps have run, i.e. one step every 5 frames. -/
theorem c5_scheduler :
    (∀ (c : ℚ) (s : Sched) (t : ℚ),
      (c ≤ t - s.last → schedFrame c s t = ⟨t, s.step + 1⟩) ∧
      (¬ c ≤ t - s.last → schedFrame c s t = s)) ∧
    (∀ k : ℕ, (schedRun 50 ⟨0, 0⟩ (k + 1)).step = k / 5) := by
  constructor
  · intro c s t
    constructor
    · intro h
      unfold schedFrame
      rw [if_pos h]
    · intro h
      unfold schedFrame
      rw [if_neg h]
  · intro k
    rw [schedRun_invariant k]

/-- Witness for C5: a frame at time 60 with baseline 0 and cadence 50 is
due and resets the baseline to 60; a frame at time 40 is not due; and over
the 11 frames at times 0, 10, ..., 100 exactly two steps run. -/
theorem c5_scheduler_witness :
    ((50 : ℚ) ≤ 60 - (Sched.mk 0 0).last ∧
      schedFrame 50 ⟨0, 0⟩ 60 = ⟨60, 1⟩) ∧
    (¬ (50 : ℚ) ≤ 40 - (Sched.mk 0 0).last ∧
      schedFrame 50 ⟨0, 0⟩ 40 = ⟨0, 0⟩) ∧
    (schedRun 50 ⟨0, 0⟩ 11).step = 2 := by
  refine ⟨⟨by norm_num, ?_⟩, ⟨by norm_num, ?_⟩, ?_⟩
  · exact (c5_scheduler.1 50 ⟨0, 0⟩ 60).1 (by norm_num)
  · exact (c5_scheduler.1 50 ⟨0, 0⟩ 40).2 (by norm_num)
  · have h := c5_scheduler.2 10
    simpa using h

/-- Counterexample to C6 as stated: in part_000, starting from the initial
step counter 1, a step frame increments the counter to 2 before the
dispatch and the render pass shares the bind group of the compute pass, so
the renderer reads gridStateBuffers[1] while the kernel wrote
gridStateBuffers[0] — not the generation the kernel just wrote. -/
theorem c6_counterexample :
    renderBuf000 (frameStep 1 true) = 1 ∧
    kernelWriteBuf000 (frameStep 1 true) = 0 ∧
    renderBuf000 (frameStep 1 true) ≠ kernelWriteBuf000 (frameStep 1 true) := by
  refine ⟨rfl, rfl, ?_⟩
  decide

/-- Claim C6 amended: in part_001 the kernel is invoked, then the step
counter advances (swapping the buffer roles), then the renderer reads
exactly the buffer the kernel wrote, and on frames without a step the
renderer reads the same buffer as before. In part_000 the counter
advances before the dispatch and the render pass shares the compute bind
group, so on a step frame the renderer reads the buffer the kernel read
(the pre-step generation, one step behind) — the kernel itself still
reads the buffer the previous step wrote; frames without a step leave the
rendered buffer unchanged. -/
theorem c6_amended :
    (∀ s : ℕ, renderBuf001 (frameStep s true) = kernelWriteBuf001 s) ∧
    (∀ s : ℕ, renderBuf001 (frameStep s false) = renderBuf001 s) ∧
    (∀ s : ℕ, renderBuf000 (frameStep s true) = kernelReadBuf000 (frameStep s true)) ∧
    (∀ s : ℕ, renderBuf000 (frameStep s true) ≠ kernelWriteBuf000 (frameStep s true)) ∧
    (∀ s : ℕ, kernelReadBuf000 (frameStep s true) = kernelWriteBuf000 s) ∧
    (∀ s : ℕ, renderBuf000 (frameStep s false) = renderBuf000 s) := by
  refine ⟨?_, ?_, ?_, ?_, ?_, ?_⟩ <;> intro s <;>
    simp [renderBuf001, kernelWriteBuf001, kernelReadBuf000, kernelWriteBuf000,
      renderBuf000, bgRead001, bgWrite001, bgRead000, bgWrite000, frameStep] <;>
    omega

/-- Counterexample to C7 as stated: in part_001 the generation buffer 1 is
written before the random fill, so with a pattern that is alive everywhere
buffer 1 still holds a dead cell at index 0 while buffer 0 holds the
pattern: both buffers are not filled with the seeded pattern. -/
theorem c7_counterexample :
    (init001 (fun _ => 1)).2 0 = 0 ∧ (init001 (fun _ => 1)).1 0 = 1 := by
  constructor <;> rfl

/-- Claim C7 amended: part_000 fills both generation buffers with the
seeded random pattern, and so does the packed buffer of script.ts over
both halves; in part_001 only buffer 0 receives the pattern (buffer 1 is
written before the fill and stays all dead), and the first rendered frame
reads buffer 0 — the render pass of the first frame without a step uses
bindGroups[0], whose storage binding is gridStateBuffers[0] — so the first
rendered generation is the random pattern, not an all-dead grid. -/
theorem c7_amended :
    ∀ (rand : ℕ → ℕ) (i : ℕ), i < 128 * 128 →
      ((init000 rand).1 i = rand i ∧ (init000 rand).2 i = rand i) ∧
      ((init001 rand).1 i = rand i ∧ (init001 rand).2 i = 0) ∧
      (∀ j, j < 2 * (64 * 64) → initTS rand j = rand j) ∧
      renderBuf001 0 = 0 := by
  intro rand i hi
  refine ⟨⟨?_, ?_⟩, ⟨?_, rfl⟩, fun j hj => ?_, rfl⟩
  · simp [init000, hi]
  · simp [init000, hi]
  · simp [init001, hi]
  · simp [initTS, hj]

/-- Witness for C7 with the everywhere-alive pattern at cell 7. -/
theorem c7_amended_witness :
    (7 : ℕ) < 128 * 128 ∧
    (((init000 (fun _ => 1)).1 7 = 1 ∧ (init000 (fun _ => 1)).2 7 = 1) ∧
      ((init001 (fun _ => 1)).1 7 = 1 ∧ (init001 (fun _ => 1)).2 7 = 0) ∧
      (∀ j, j < 2 * (64 * 64) → initTS (fun _ => 1) j = 1) ∧
      renderBuf001 0 = 0) :=
  ⟨by decide, c7_amended (fun _ => 1) 7 (by decide)⟩

/-- Helper: the part_000 dispatch never touches slots outside the grid. -/
theorem step000_out_of_grid (time mx my : ℚ) (pressed : ℕ) (cur next : ℕ → ℕ)
    (j : ℕ) (hj : ¬ j < 128 * 128) :
    step000 time mx my pressed cur next j = next j := by
  unfold step000
  rw [if_neg hj]

/-- Helper: painting in part_000 with either target coordinate at or past
the grid size writes nothing: the comparison is against the raw cell
coordinates, whose x part is always below 128 and whose y part is below
128 for every in-grid slot, so no invocation matches. -/
theorem step000_paint_miss (time mx my : ℚ) (pressed : ℕ) (cur next : ℕ → ℕ)
    (hp : pressed % 2 = 1)
    (hm : 128 ≤ mapPtr mx 128 ∨ 128 ≤ mapPtr my 128) :
    ∀ j, step000 time mx my pressed cur next j = next j := by
  intro j
  unfold step000
  by_cases hj : j < 128 * 128
  · rw [if_pos hj, if_pos hp, if_neg]
    rintro ⟨h1, h2⟩
    rcases hm with hm | hm <;> omega
  · rw [if_neg hj]

/-- Helper: painting in script.ts with either target coordinate at or
past the grid size writes nothing, for the same reason. -/
theorem paintTS_miss (mx my : ℚ) (g : ℕ → ℕ)
    (hm : 64 ≤ mapPtr mx 64 ∨ 64 ≤ mapPtr my 64) :
    ∀ j, paintTS mx my g j = g j := by
  intro j
  unfold paintTS
  rw [if_neg]
  rintro ⟨hj, h1, h2⟩
  rcases hm with hm | hm <;> omega

/-- Helper: a pointer coordinate below -1 maps to a negative target,
which the saturating float-to-u32 conversion clamps to 0. -/
theorem mapPtr_neg (p : ℚ) (s : ℕ) (hp : p < -1) (hs : 0 < s) :
    mapPtr p s = 0 := by
  have hs' : (0 : ℚ) < ((s : ℕ) : ℚ) := by exact_mod_cast hs
  have hneg : (p + 1) / 2 * ((s : ℕ) : ℚ) < 0 := by nlinarith
  have hfl : ⌊(p + 1) / 2 * ((s : ℕ) : ℚ)⌋ < 0 :=
    Int.floor_lt.2 (by exact_mod_cast hneg)
  unfold mapPtr satU32
  rw [if_pos hfl]

/-- The pointer origin maps to the center cell: column 64 on a width-128
grid. -/
theorem mapPtr_origin_128 : mapPtr 0 128 = 64 := by
  norm_num [mapPtr, satU32, U32]
  rfl

/-- The pointer origin maps to the center cell: column 32 on a width-64
grid. -/
theorem mapPtr_origin_64 : mapPtr 0 64 = 32 := by
  norm_num [mapPtr, satU32, U32]
  rfl

/-- The out-of-canvas pointer x = 2 maps to column 192 on a width-128
grid, past the grid. -/
theorem mapPtr_two_128 : mapPtr 2 128 = 192 := by
  norm_num [mapPtr, satU32, U32]
  rfl

/-- The out-of-canvas pointer x = 2 maps to column 96 on a width-64 grid,
past the grid. -/
theorem mapPtr_two_64 : mapPtr 2 64 = 96 := by
  norm_num [mapPtr, satU32, U32]
  rfl

/-- Counterexample to C3 as stated: in script.ts, painting at the pointer
origin (target cell (32, 32), index 2080) writes alive the slot 2080 of
the current generation half and leaves the next-generation slot
4096 + 2080 unchanged (dead): no cell is written alive into the next
generation. -/
theorem c3_counterexample :
    paintTS 0 0 zeroGrid (64 * 64 + 2080) = 0 ∧ paintTS 0 0 zeroGrid 2080 = 1 := by
  constructor
  · norm_num [paintTS, zeroGrid]
  · norm_num [paintTS, mapPtr_origin_64]

/-- Claim C3 amended: when pressed bit 0 is set the rule is suspended and
the mapped target floor((pointer + 1) / 2 * (width, height)) (after the
saturating float-to-u32 conversion) is painted. In part_000, if the
target lies in grid, exactly one next-generation slot — the target cell
— is written alive and every other next-generation slot keeps its
pre-step value; if either target coordinate is at or past the grid size
it matches no cell and nothing is written. In script.ts the write goes to
the painted cell in the current generation half, and every
next-generation slot is left unchanged. -/
theorem c3_amended :
    (∀ (time mx my : ℚ) (pressed : ℕ) (cur next : ℕ → ℕ) (tx ty : ℕ),
      pressed % 2 = 1 → mapPtr mx 128 = tx → mapPtr my 128 = ty →
      tx < 128 → ty < 128 →
      step000 time mx my pressed cur next (ty * 128 + tx) = 1 ∧
      ∀ j, j ≠ ty * 128 + tx → step000 time mx my pressed cur next j = next j) ∧
    (∀ (time mx my : ℚ) (pressed : ℕ) (cur next : ℕ → ℕ),
      pressed % 2 = 1 → 128 ≤ mapPtr mx 128 ∨ 128 ≤ mapPtr my 128 →
      ∀ j, step000 time mx my pressed cur next j = next j) ∧
    (∀ (mx my : ℚ) (g : ℕ → ℕ) (tx ty : ℕ),
      mapPtr mx 64 = tx → mapPtr my 64 = ty → tx < 64 → ty < 64 →
      paintTS mx my g (ty * 64 + tx) = 1 ∧
      (∀ j, 64 * 64 ≤ j → paintTS mx my g j = g j) ∧
      (∀ j, j ≠ ty * 64 + tx → paintTS mx my g j = g j)) := by
  refine ⟨?_, step000_paint_miss, ?_⟩
  · intro time mx my pressed cur next tx ty hp hmx hmy htx hty
    constructor
    · unfold step000
      rw [if_pos (by omega : ty * 128 + tx < 128 * 128), if_pos hp, if_pos]
      constructor
      · rw [hmx]; omega
      · rw [hmy]; omega
    · intro j hj
      unfold step000
      by_cases hjg : j < 128 * 128
      · rw [if_pos hjg, if_pos hp, if_neg]
        rintro ⟨h1, h2⟩
        rw [hmx] at h1
        rw [hmy] at h2
        omega
      · rw [if_neg hjg]
  · intro mx my g tx ty hmx hmy htx hty
    refine ⟨?_, ?_, ?_⟩
    · unfold paintTS
      rw [if_pos]
      refine ⟨by omega, by rw [hmx]; omega, by rw [hmy]; omega⟩
    · intro j hj
      unfold paintTS
      rw [if_neg]
      rintro ⟨h1, -, -⟩
      omega
    · intro j hj
      unfold paintTS
      by_cases hjg : j < 64 * 64
      · rw [if_neg]
        rintro ⟨-, h1, h2⟩
        rw [hmx] at h1
        rw [hmy] at h2
        omega
      · rw [if_neg]
        rintro ⟨h1, -, -⟩
        omega

/-- Witness for C3: painting at the pointer origin in part_000 targets
cell (64, 64) and writes alive exactly its next-generation slot; a
pointer with y = 2 (target row 192, past the grid) writes nothing; in
script.ts the origin pointer paints cell (32, 32) in the current half. -/
theorem c3_amended_witness :
    (1 : ℕ) % 2 = 1 ∧ mapPtr 0 128 = 64 ∧ (64 : ℕ) < 128 ∧
    mapPtr 0 64 = 32 ∧ (32 : ℕ) < 64 ∧ 128 ≤ mapPtr 2 128 ∧
    (step000 0 0 0 1 zeroGrid zeroGrid (64 * 128 + 64) = 1 ∧
      ∀ j, j ≠ 64 * 128 + 64 → step000 0 0 0 1 zeroGrid zeroGrid j = zeroGrid j) ∧
    step000 0 0 2 1 zeroGrid zeroGrid 9 = zeroGrid 9 ∧
    (paintTS 0 0 zeroGrid (32 * 64 + 32) = 1 ∧
      (∀ j, 64 * 64 ≤ j → paintTS 0 0 zeroGrid j = zeroGrid j) ∧
      (∀ j, j ≠ 32 * 64 + 32 → paintTS 0 0 zeroGrid j = zeroGrid j)) := by
  have hm : (128 : ℕ) ≤ mapPtr 2 128 := by rw [mapPtr_two_128]; norm_num
  refine ⟨rfl, mapPtr_origin_128, by decide, mapPtr_origin_64, by decide, hm, ?_, ?_, ?_⟩
  · exact c3_amended.1 0 0 0 1 zeroGrid zeroGrid 64 64 rfl mapPtr_origin_128
      mapPtr_origin_128 (by decide) (by decide)
  · exact c3_amended.2.1 0 0 2 1 zeroGrid zeroGrid rfl (Or.inr hm) 9
  · exact c3_amended.2.2 0 0 zeroGrid 32 32 mapPtr_origin_64 mapPtr_origin_64
      (by decide) (by decide)

/-- Counterexample to C10 as stated: with pressed bit 0 set and the
out-of-canvas pointer (2, 0), the mapped target is (192, 64); the claim
says the modulo addressing of the kernel resolves it to the in-grid cell
(192 mod 128, 64) = (64, 64) and forces it alive, but the paint comparison
uses the raw target, no invocation matches, and cell (64, 64) (index
64 * 128 + 64 of the next generation) stays dead. -/
theorem c10_counterexample :
    mapPtr 2 128 = 192 ∧ 128 ≤ mapPtr 2 128 ∧
    step000 0 2 0 1 zeroGrid zeroGrid (64 * 128 + 64) = 0 := by
  refine ⟨mapPtr_two_128, by rw [mapPtr_two_128]; norm_num, ?_⟩
  norm_num [step000, mapPtr_two_128, zeroGrid]

/-- Claim C10 amended: painting never performs an out-of-range buffer
access, in either paint kernel — the part_000 dispatch leaves every slot
outside its grid range untouched and the script.ts paint dispatch leaves
every slot at or past its current-half range untouched, every write
landing at the own in-grid index of an invocation — but an out-of-range
mapped target is not wrapped back into the grid by the modulo addressing:
if either target coordinate is at or past the grid size it matches no
cell and nothing is painted (both kernels), while a pointer coordinate
below -1 saturates to 0 in the float-to-u32 conversion and the edge cell
at coordinate 0 of the target row is painted (both kernels); the mapped
target itself always stays inside the u32 range. -/
theorem c10_amended :
    (∀ (time mx my : ℚ) (pressed : ℕ) (cur next : ℕ → ℕ) (j : ℕ),
      ¬ j < 128 * 128 → step000 time mx my pressed cur next j = next j) ∧
    (∀ (mx my : ℚ) (g : ℕ → ℕ) (j : ℕ),
      ¬ j < 64 * 64 → paintTS mx my g j = g j) ∧
    (∀ (time mx my : ℚ) (pressed : ℕ) (cur next : ℕ → ℕ),
      pressed % 2 = 1 → 128 ≤ mapPtr mx 128 ∨ 128 ≤ mapPtr my 128 →
      ∀ j, step000 time mx my pressed cur next j = next j) ∧
    (∀ (mx my : ℚ) (g : ℕ → ℕ),
      64 ≤ mapPtr mx 64 ∨ 64 ≤ mapPtr my 64 →
      ∀ j, paintTS mx my g j = g j) ∧
    (∀ (p : ℚ) (s : ℕ), p < -1 → 0 < s → mapPtr p s = 0) ∧
    (∀ (time mx my : ℚ) (pressed : ℕ) (cur next : ℕ → ℕ) (ty : ℕ),
      pressed % 2 = 1 → mx < -1 → mapPtr my 128 = ty → ty < 128 →
      step000 time mx my pressed cur next (ty * 128 + 0) = 1) ∧
    (∀ (mx my : ℚ) (g : ℕ → ℕ) (ty : ℕ),
      mx < -1 → mapPtr my 64 = ty → ty < 64 →
      paintTS mx my g (ty * 64 + 0) = 1) ∧
    (∀ (p : ℚ) (s : ℕ), mapPtr p s < U32) := by
  refine ⟨step000_out_of_grid, ?_, step000_paint_miss, paintTS_miss, mapPtr_neg,
    ?_, ?_, ?_⟩
  · intro mx my g j hj
    unfold paintTS
    rw [if_neg]
    rintro ⟨h1, -, -⟩
    omega
  · intro time mx my pressed cur next ty hp hmx hmy hty
    have h0 : mapPtr mx 128 = 0 := mapPtr_neg mx 128 hmx (by norm_num)
    unfold step000
    rw [if_pos (by omega : ty * 128 + 0 < 128 * 128), if_pos hp, if_pos]
    constructor
    · rw [h0]; omega
    · rw [hmy]; omega
  · intro mx my g ty hmx hmy hty
    have h0 : mapPtr mx 64 = 0 := mapPtr_neg mx 64 hmx (by norm_num)
    unfold paintTS
    rw [if_pos]
    refine ⟨by omega, by rw [h0]; omega, by rw [hmy]; omega⟩
  · intro p s
    unfold mapPtr satU32
    split
    · norm_num [U32]
    · exact lt_of_le_of_lt (min_le_right _ _) (by norm_num [U32])

/-- Witness for C10: slots outside the grid and outside the current half
are untouched; painting with pointer y = 2 (row target 192 or 96, past
the grid) writes nothing in either kernel; pointer x = -2 saturates to
column 0 and paints the edge cell of the pointer row in both kernels;
the mapped target of pointer 7 is in u32 range. -/
theorem c10_amended_witness :
    (¬ (20000 : ℕ) < 128 * 128 ∧
      step000 0 0 0 0 zeroGrid zeroGrid 20000 = zeroGrid 20000) ∧
    (¬ (5000 : ℕ) < 64 * 64 ∧ paintTS 0 0 zeroGrid 5000 = zeroGrid 5000) ∧
    ((1 : ℕ) % 2 = 1 ∧ 128 ≤ mapPtr 2 128 ∧
      step000 3 0 2 1 zeroGrid zeroGrid 5 = zeroGrid 5) ∧
    (64 ≤ mapPtr 2 64 ∧ paintTS 0 2 zeroGrid 7 = zeroGrid 7) ∧
    ((-2 : ℚ) < -1 ∧ (0 : ℕ) < 128 ∧ mapPtr (-2) 128 = 0) ∧
    (mapPtr 0 128 = 64 ∧
      step000 0 (-2) 0 1 zeroGrid zeroGrid (64 * 128 + 0) = 1) ∧
    (mapPtr 0 64 = 32 ∧ paintTS (-2) 0 zeroGrid (32 * 64 + 0) = 1) ∧
    mapPtr 7 64 < U32 := by
  obtain ⟨h1, h2, h3, h4, h5, h6, h7, h8⟩ := c10_amended
  have hm128 : (128 : ℕ) ≤ mapPtr 2 128 := by rw [mapPtr_two_128]; norm_num
  have hm64 : (64 : ℕ) ≤ mapPtr 2 64 := by rw [mapPtr_two_64]; norm_num
  refine ⟨⟨by decide, h1 0 0 0 0 zeroGrid zeroGrid 20000 (by decide)⟩,
    ⟨by decide, h2 0 0 zeroGrid 5000 (by decide)⟩,
    ⟨rfl, hm128, h3 3 0 2 1 zeroGrid zeroGrid rfl (Or.inr hm128) 5⟩,
    ⟨hm64, h4 0 2 zeroGrid (Or.inr hm64) 7⟩,
    ⟨by norm_num, by norm_num, h5 (-2) 128 (by norm_num) (by norm_num)⟩,
    ⟨mapPtr_origin_128,
      h6 0 (-2) 0 1 zeroGrid zeroGrid 64 rfl (by norm_num) mapPtr_origin_128 (by decide)⟩,
    ⟨mapPtr_origin_64,
      h7 (-2) 0 zeroGrid 32 (by norm_num) mapPtr_origin_64 (by decide)⟩,
    h8 7 64⟩

/-- A packed script.ts buffer whose current half (indices below 4096) is
all dead and whose next half is all alive, to expose the copy loop. -/
def halfGrid : ℕ → ℕ := fun j => if j < 64 * 64 then 0 else 1

/-- Claim C4 is violated by script.ts (code bug): the trailing copy loop
of one cmain invocation writes the current-generation half that other
invocations of the same step are still reading. Concretely, the cell
(0, 0) invocation on a no-paint, step frame changes slot 1 — an index of
the generation being read — from 0 to 1. -/
theorem c4_copy_loop_bug :
    cmainTS 0 0 0 0 halfGrid 0 0 1 = 1 ∧ halfGrid 1 = 0 ∧
    cmainTS 0 0 0 0 halfGrid 0 0 1 ≠ halfGrid 1 ∧ (1 : ℕ) < 64 * 64 := by
  have h : cmainTS 0 0 0 0 halfGrid 0 0 1 = 1 := by
    norm_num [cmainTS, copyTS, ruleWriteTS, cellIndex, halfGrid]
  refine ⟨h, rfl, ?_, by norm_num⟩
  rw [h]
  norm_num [halfGrid]

/-- Claim C8: with a single alive cell at (x0, y0), every other instance
has all its quad vertices mapped to one single point (the local corner is
scaled by the dead state 0), the alive instance is not degenerate, and its
quad is translated to the normalized-device offset computed from (x0, y0):
p maps to ((p + 1) / W - 1 + (x0, y0) / W * 2). -/
theorem c8_single_alive (W x0 y0 : ℕ) (hW : 0 < W) (hx : x0 < W) (hy : y0 < W) :
    (∀ inst, inst ≠ y0 * W + x0 → ∀ p q : ℚ × ℚ,
      vmainPos W (singleAlive W x0 y0) inst p = vmainPos W (singleAlive W x0 y0) inst q) ∧
    (¬ ∀ p q : ℚ × ℚ,
      vmainPos W (singleAlive W x0 y0) (y0 * W + x0) p =
        vmainPos W (singleAlive W x0 y0) (y0 * W + x0) q) ∧
    (∀ p : ℚ × ℚ,
      vmainPos W (singleAlive W x0 y0) (y0 * W + x0) p =
        ((p.1 + 1) / (W : ℚ) - 1 + (x0 : ℚ) / (W : ℚ) * 2,
         (p.2 + 1) / (W : ℚ) - 1 + (y0 : ℚ) / (W : ℚ) * 2)) := by
  have hone : singleAlive W x0 y0 (y0 * W + x0) = 1 := if_pos rfl
  have hmod : (y0 * W + x0) % W = x0 := by
    rw [Nat.mul_add_mod', Nat.mod_eq_of_lt hx]
  have hdiv : (y0 * W + x0) / W = y0 := by
    rw [Nat.mul_comm y0 W, Nat.mul_add_div hW, Nat.div_eq_of_lt hx, Nat.add_zero]
  have hW' : ((W : ℚ)) ≠ 0 := by
    exact_mod_cast hW.ne'
  refine ⟨?_, ?_, ?_⟩
  · intro inst hne p q
    have h0 : singleAlive W x0 y0 inst = 0 := if_neg hne
    simp [vmainPos, h0]
  · intro h
    have h1 := congrArg Prod.fst (h (0, 0) (1, 0))
    simp only [vmainPos, hone] at h1
    norm_num at h1
    field_simp at h1
  · intro p
    simp only [vmainPos, hone, hmod, hdiv, Nat.cast_one, mul_one, Prod.mk.injEq]

/-- Witness for C8 at W = 64, (x0, y0) = (1, 2). -/
theorem c8_single_alive_witness :
    (0 : ℕ) < 64 ∧ (1 : ℕ) < 64 ∧ (2 : ℕ) < 64 ∧
    ((∀ inst, inst ≠ 2 * 64 + 1 → ∀ p q : ℚ × ℚ,
      vmainPos 64 (singleAlive 64 1 2) inst p = vmainPos 64 (singleAlive 64 1 2) inst q) ∧
    (¬ ∀ p q : ℚ × ℚ,
      vmainPos 64 (singleAlive 64 1 2) (2 * 64 + 1) p =
        vmainPos 64 (singleAlive 64 1 2) (2 * 64 + 1) q) ∧
    (∀ p : ℚ × ℚ,
      vmainPos 64 (singleAlive 64 1 2) (2 * 64 + 1) p =
        ((p.1 + 1) / ((64 : ℕ) : ℚ) - 1 + ((1 : ℕ) : ℚ) / ((64 : ℕ) : ℚ) * 2,
         (p.2 + 1) / ((64 : ℕ) : ℚ) - 1 + ((2 : ℕ) : ℚ) / ((64 : ℕ) : ℚ) * 2))) :=
  ⟨by decide, by decide, by decide,
    c8_single_alive 64 1 2 (by decide) (by decide) (by decide)⟩

/-- Helper: the float remainder of a nonnegative integer-valued float by 9
is its integer remainder. -/
theorem fmod_intCast_nine (f : ℤ) (hf : 0 ≤ f) :
    fmod (f : ℚ) 9 = ((f % 9 : ℤ) : ℚ) := by
  unfold fmod ftrunc
  have hq : (0 : ℚ) ≤ (f : ℚ) / 9 := by positivity
  rw [if_pos hq]
  have hfl : ⌊(f : ℚ) / 9⌋ = f / 9 := by
    rw [show (9 : ℚ) = ((9 : ℕ) : ℚ) by norm_num]
    exact Rat.floor_intCast_div_natCast f 9
  rw [hfl]
  rw [Int.emod_def]
  push_cast
  ring

/-- Helper: for nonnegative t the keyframe index is the floor of
t / keyframeLength reduced modulo 9, and is below 9. -/
theorem keyframeIndex_spec (t : ℚ) (ht : 0 ≤ t) :
    keyframeIndex t = (⌊t / keyframeLength⌋ % 9).toNat ∧ keyframeIndex t < 9 := by
  have hf : 0 ≤ ⌊t / keyframeLength⌋ := by
    apply Int.floor_nonneg.mpr
    unfold keyframeLength
    positivity
  have hm0 : 0 ≤ ⌊t / keyframeLength⌋ % 9 := Int.emod_nonneg _ (by norm_num)
  have hm9 : ⌊t / keyframeLength⌋ % 9 < 9 := Int.emod_lt_of_pos _ (by norm_num)
  have heq : keyframeIndex t = (⌊t / keyframeLength⌋ % 9).toNat := by
    unfold keyframeIndex
    rw [fmod_intCast_nine _ hf, Int.floor_intCast]
    unfold satU32
    rw [if_neg (by omega)]
    have hle : (⌊t / keyframeLength⌋ % 9).toNat ≤ U32 - 1 := by
      unfold U32
      omega
    rw [min_eq_left hle]
  exact ⟨heq, by omega⟩

/-- Counterexample to C9 as stated: at t = 8000 the keyframe index is 8
and the second palette access uses index 8 + 1 = 9, which is not within
the bounds of the 9-entry keyframe table (it is one past the end, not the
first entry). -/
theorem c9_counterexample :
    keyframeIndex 8000 + 1 = 9 ∧ keyframes.length = 9 ∧
    ¬ keyframeIndex 8000 + 1 < keyframes.length := by
  have h8 : keyframeIndex 8000 = 8 := by
    rw [(keyframeIndex_spec 8000 (by norm_num)).1]
    norm_num [keyframeLength]
    rfl
  refine ⟨by rw [h8], rfl, ?_⟩
  rw [h8]
  decide

/-- Claim C9 amended: for every t at least 0 the shading selects keyframe
index floor(t / 1000) mod 9 (below 9, so the first access is in bounds)
and interpolation fraction fract(t / 1000) in [0, 1); the second access
uses the raw index + 1, which reaches 9 — one past the end — when the
index is 8, and is then clamped by the runtime to the last entry; because
the last entry of the palette equals the first, the clamped read yields
exactly the cyclic successor, so the rendered color cycle still loops
continuously. -/
theorem c9_amended :
    ∀ t : ℚ, 0 ≤ t →
      keyframeIndex t = (⌊t / keyframeLength⌋ % 9).toNat ∧
      keyframeIndex t < 9 ∧
      keyframeIndex t + 1 ≤ 9 ∧
      kfClamped (keyframeIndex t + 1) =
        keyframes.getD ((keyframeIndex t + 1) % 9) (0, 0, 0, 0) ∧
      keyframeProgress t = t / keyframeLength - ⌊t / keyframeLength⌋ ∧
      0 ≤ keyframeProgress t ∧ keyframeProgress t < 1 := by
  intro t ht
  obtain ⟨heq, hlt⟩ := keyframeIndex_spec t ht
  refine ⟨heq, hlt, by omega, ?_, rfl, Int.fract_nonneg _, Int.fract_lt_one _⟩
  set n := keyframeIndex t with hn
  clear_value n
  interval_cases n <;> rfl

/-- Witness for C9 at t = 8500: index 8, clamped successor equal to the
cyclic successor, fraction one half. -/
theorem c9_amended_witness :
    (0 : ℚ) ≤ 8500 ∧
    (keyframeIndex 8500 = (⌊(8500 : ℚ) / keyframeLength⌋ % 9).toNat ∧
      keyframeIndex 8500 < 9 ∧
      keyframeIndex 8500 + 1 ≤ 9 ∧
      kfClamped (keyframeIndex 8500 + 1) =
        keyframes.getD ((keyframeIndex 8500 + 1) % 9) (0, 0, 0, 0) ∧
      keyframeProgress 8500 = (8500 : ℚ) / keyframeLength - ⌊(8500 : ℚ) / keyframeLength⌋ ∧
      0 ≤ keyframeProgress 8500 ∧ keyframeProgress 8500 < 1) :=
  ⟨by norm_num, c9_amended 8500 (by norm_num)⟩
